import Mathlib

/-!
Verification development for the GloboCorp GPT Genie chat widget
(`src/good code/genie.js`, `src/good code/app.js`, plus its configuration
file).  The JavaScript is shallowly embedded: strings become `List Char`,
JS array operations become `List` operations, `Math.random()` becomes an
explicit rational draw `r` with `0 ≤ r < 1`, `localStorage` becomes an
explicit storage cell threaded through the functions, and the DOM chat
window is abstracted to the count of `.message` elements it contains
(only that count is ever inspected by the core logic, in
`enforceMessageLimit`).
-/

/-- Sender of a chat message: the `sender` argument of `addMessage` in
`genie.js` is the string `"user"` or `"genie"`; we embed it as a closed
enumeration. -/
inductive Sender where
  | user
  | genie
deriving DecidableEq

/-- A chat message as pushed by `genie.js` `addMessage`:
`{ text, sender, timestamp: new Date() }`.  Timestamps are embedded as
naturals (milliseconds since epoch). -/
structure Message where
  text : List Char
  sender : Sender
  timestamp : Nat
deriving DecidableEq

/-- Result of `JSON.parse` on a syntactically well-formed payload.
`JSON.parse` performs no shape validation, so the parsed value is either
an array of well-formed message records (`msgArray`) or any other JSON
value (`nonArray`, e.g. a number or an object), which `loadMessageHistory`
would assign to `this.messageHistory` verbatim. -/
inductive JsonValue where
  | msgArray (msgs : List Message)
  | nonArray (tag : Nat)
deriving DecidableEq

/-- Contents of the `localStorage` key `genie-message-history`:
`absent` models a missing (or empty, hence falsy) entry, `malformedSyntax`
models a string on which `JSON.parse` throws, and `payload v` models a
string that parses to the JSON value `v`. -/
inductive StoredPayload where
  | absent
  | malformedSyntax
  | payload (v : JsonValue)
deriving DecidableEq

/-- JavaScript `array.slice(-count)`: for `count > 0` this keeps the last
`count` elements; for `count = 0`, `slice(-0)` is `slice(0)`, the whole
array.  Used by `enforceMessageLimit` (`slice(-limit)`) and by
`saveMessageHistory` (`slice(-50)`). -/
def jsSliceLast (count : Nat) (l : List Message) : List Message :=
  if count = 0 then l else l.drop (l.length - count)

/-- `saveMessageHistory` from `genie.js` lines 422-431: returns early when
the `enableMessageHistory` feature flag is off; otherwise serializes the
last 50 messages of the in-memory history into the storage cell.  The
success path is modelled (the claims under verification assume the
`setItem` quota error does not fire). -/
def saveMessageHistory (enabled : Bool) (history : List Message)
    (storage : StoredPayload) : StoredPayload :=
  if enabled then StoredPayload.payload (JsonValue.msgArray (jsSliceLast 50 history))
  else storage

/-- `loadMessageHistory` from `genie.js` lines 405-417: returns early when
the feature flag is off; otherwise reads the storage cell and, when a
value is present, assigns `JSON.parse` of it to `this.messageHistory`
(with no shape validation).  A `JSON.parse` exception is caught and
logged; the history is left unchanged.  The result is the new
`messageHistory` value paired with whether the failure branch logged an
error. -/
def loadMessageHistory (enabled : Bool) (storage : StoredPayload)
    (history : JsonValue) : JsonValue × Bool :=
  if enabled then
    match storage with
    | StoredPayload.absent => (history, false)
    | StoredPayload.malformedSyntax => (history, true)
    | StoredPayload.payload v => (v, false)
  else (history, false)

/-- The configuration values consumed by the core logic, from
`config.js` (`GenieConfig`): `ui.maxMessageLength`, `ui.messageLimit`,
`responses.delay.{min,max}`, `responses.replies`, and
`features.enableMessageHistory`. -/
structure Config where
  maxMessageLength : Nat
  messageLimit : Nat
  delayMin : Int
  delayMax : Int
  replies : List (List Char)
  enableMessageHistory : Bool
deriving DecidableEq

/-- The concrete `GenieConfig` values shipped in `config.js`. -/
def genieConfig : Config :=
  { maxMessageLength := 500
    messageLimit := 100
    delayMin := 800
    delayMax := 2000
    replies :=
      [ "Presto...100 points!".data
      , "Your wish is granted! ✨".data
      , "Abracadabra! Consider it done!".data
      , "By the power of GloboCorp, it shall be so!".data
      , "Wish granted with corporate efficiency!".data
      , "Magic is happening behind the scenes!".data
      , "The GloboCorp magic is working!".data
      , "Your request has been processed successfully!".data
      , "Behold! Your wish comes true!".data
      , "The corporate genie delivers!".data ]
    enableMessageHistory := true }

/-- The conversation-store portion of a `GlobocorpGenie` instance:
`domCount` is the number of `.message` elements (excluding the typing
indicator) currently in the chat window — `addMessage` appends one per
message and `enforceMessageLimit` queries and trims them —
`messageHistory` is `this.messageHistory`, and `storage` is the
`localStorage` cell. -/
structure StoreState where
  domCount : Nat
  messageHistory : List Message
  storage : StoredPayload
deriving DecidableEq

/-- `enforceMessageLimit` from `genie.js` lines 383-400: when the number
of rendered `.message` elements exceeds `ui.messageLimit`, the excess
oldest elements are removed from the chat window (none of the elements
created by `addMessage` carry the `welcome-message` class, so exactly
`excess` are removed) and the in-memory history is replaced by
`messageHistory.slice(-limit)`. -/
def enforceMessageLimit (cfg : Config) (s : StoreState) : StoreState :=
  if cfg.messageLimit < s.domCount then
    { s with domCount := cfg.messageLimit
             messageHistory := jsSliceLast cfg.messageLimit s.messageHistory }
  else s

/-- `addMessage` from `genie.js` lines 242-268: appends a message element
to the chat window, pushes `{ text, sender, timestamp }` onto
`messageHistory`, runs `enforceMessageLimit`, and, when
`features.enableMessageHistory` is set, runs `saveMessageHistory`
(auto-scroll and the screen-reader announcement have no effect on this
state). -/
def addMessage (cfg : Config) (s : StoreState) (text : List Char)
    (who : Sender) (ts : Nat) : StoreState :=
  let s1 : StoreState :=
    { s with domCount := s.domCount + 1
             messageHistory := s.messageHistory ++ [⟨text, who, ts⟩] }
  let s2 := enforceMessageLimit cfg s1
  if cfg.enableMessageHistory then
    { s2 with storage := saveMessageHistory true s2.messageHistory s2.storage }
  else s2

/-- JavaScript `String.prototype.trim`: strips leading and trailing
whitespace.  Embedded on `List Char` with `Char.isWhitespace` standing
for the JS WhiteSpace/LineTerminator class. -/
def jsTrim (l : List Char) : List Char :=
  ((l.dropWhile Char.isWhitespace).reverse.dropWhile Char.isWhitespace).reverse

/-- The two validation failures surfaced by the validators: the
empty-message error and the too-long error. -/
inductive ValidationError where
  | emptyMessage
  | tooLong
deriving DecidableEq

/-- `validateMessage` from `genie.js` lines 185-200: `!message` (for a
string, exactly the empty string) yields the empty-message error;
`message.length > config.ui.maxMessageLength` yields the too-long error;
otherwise the message is accepted.  `none` means valid. -/
def validateMessage (message : List Char) (maxLength : Nat) :
    Option ValidationError :=
  if message.isEmpty then some ValidationError.emptyMessage
  else if maxLength < message.length then some ValidationError.tooLong
  else none

/-- `Utils.validateMessage` from `app.js` lines 86-96:
`!message || message.trim().length === 0` yields the empty error;
`message.length > CONFIG.chat.maxMessageLength` (note: the raw length)
yields the too-long error; otherwise valid. -/
def utilsValidateMessage (message : List Char) (maxLength : Nat) :
    Option ValidationError :=
  if message.isEmpty ∨ (jsTrim message).length = 0 then
    some ValidationError.emptyMessage
  else if maxLength < message.length then some ValidationError.tooLong
  else none

/-- The validation pipeline as invoked at the `genie.js` call site
(`handleSendMessage` lines 149-152): the raw input is trimmed first and
the trimmed string is both validated and, on success, used as the message
text. -/
def validateTrimmed (raw : List Char) (maxLength : Nat) :
    Except ValidationError (List Char) :=
  let t := jsTrim raw
  match validateMessage t maxLength with
  | some e => Except.error e
  | none => Except.ok t

/-- The validation pipeline as invoked at the `app.js` call site
(`handleSendMessage` lines 238-244): the raw input is trimmed first,
`Utils.validateMessage` is applied to the trimmed string, and on success
the trimmed string is used. -/
def utilsValidateTrimmed (raw : List Char) (maxLength : Nat) :
    Except ValidationError (List Char) :=
  let t := jsTrim raw
  match utilsValidateMessage t maxLength with
  | some e => Except.error e
  | none => Except.ok t

/-- `getRandomDelay` from `genie.js` lines 440-443 (identical formula in
`Utils.getRandomDelay`, `app.js` lines 70-73):
`Math.floor(Math.random() * (max - min + 1)) + min`, with the random draw
`r ∈ [0, 1)` made explicit. -/
def getRandomDelay (r : ℚ) (mi ma : Int) : Int :=
  ⌊r * ((ma : ℚ) - (mi : ℚ) + 1)⌋ + mi

/-- `Utils.getRandomResponse` from `app.js` lines 78-81 (the same
expression appears in `generateResponse`, `genie.js` lines 228-237):
`responses[Math.floor(Math.random() * responses.length)]`.  Out-of-bounds
indexing yields JavaScript `undefined`, embedded as `none`. -/
def getRandomResponse (r : ℚ) (responses : List (List Char)) :
    Option (List Char) :=
  responses.get? (Int.toNat ⌊r * (responses.length : ℚ)⌋)

/-- Controller state for the `genie.js` submission lifecycle
(`handleSendMessage`, lines 148-180): the conversation store, the
`isProcessing` re-entrancy flag, and a ghost log recording the sender of
every message appended via `addMessage`, in order (used to state the
ordering guarantee; it mirrors the sequence of `addMessage` calls and is
not part of the JavaScript state). -/
structure CtrlState where
  store : StoreState
  isProcessing : Bool
  appendLog : List Sender
deriving DecidableEq

/-- The two events driving the controller: a form submission carrying the
raw input value, and the resumption after the simulated-delay `await`
(the single suspension point of `handleSendMessage`), carrying the reply
text selected by `generateResponse`. -/
inductive GenieEvent where
  | submit (text : List Char) (ts : Nat)
  | timerFires (reply : List Char) (ts : Nat)
deriving DecidableEq

/-- `handleSendMessage` from `genie.js` lines 148-180, up to its single
suspension point: the input is trimmed; a validation failure shows an
error and returns with no state change; a submission while `isProcessing`
returns with no state change; otherwise `isProcessing` is set and the
trimmed user message is appended. -/
def handleSendMessage (cfg : Config) (c : CtrlState) (text : List Char)
    (ts : Nat) : CtrlState :=
  let t := jsTrim text
  match validateMessage t cfg.maxMessageLength with
  | some _ => c
  | none =>
    if c.isProcessing then c
    else
      { store := addMessage cfg c.store t Sender.user ts
        isProcessing := true
        appendLog := c.appendLog ++ [Sender.user] }

/-- The remainder of `handleSendMessage` after the `await this.sleep`
inside `processGenieResponse` resolves: the selected genie reply is
appended and the `finally` block clears `isProcessing`.  No timer is
pending while the controller is idle, so the event is a no-op there. -/
def timerResume (cfg : Config) (c : CtrlState) (reply : List Char)
    (ts : Nat) : CtrlState :=
  if c.isProcessing then
    { store := addMessage cfg c.store reply Sender.genie ts
      isProcessing := false
      appendLog := c.appendLog ++ [Sender.genie] }
  else c

/-- One step of the controller on an event. -/
def stepGenie (cfg : Config) (c : CtrlState) : GenieEvent → CtrlState
  | GenieEvent.submit text ts => handleSendMessage cfg c text ts
  | GenieEvent.timerFires reply ts => timerResume cfg c reply ts

/-- The controller state right after the constructor
(`this.messageHistory = []; this.isProcessing = false`), with the given
`localStorage` contents. -/
def initCtrl (st : StoredPayload) : CtrlState :=
  { store := { domCount := 0, messageHistory := [], storage := st }
    isProcessing := false
    appendLog := [] }

/-- Run the controller over a sequence of events from the initial
state. -/
def runGenie (cfg : Config) (st : StoredPayload)
    (events : List GenieEvent) : CtrlState :=
  events.foldl (stepGenie cfg) (initCtrl st)

/-- A sender log consisting of complete User-then-Genie pairs. -/
def isUserGeniePairs : List Sender → Bool
  | [] => true
  | Sender.user :: Sender.genie :: rest => isUserGeniePairs rest
  | _ => false

/-- A sender log consisting of complete User-then-Genie pairs followed by
one pending User message. -/
def isPairsThenUser : List Sender → Bool
  | [Sender.user] => true
  | Sender.user :: Sender.genie :: rest => isPairsThenUser rest
  | _ => false

/-- The ordering guarantee on the append log: while idle the log is a
sequence of complete User/Genie pairs; while a submission is processing
it additionally ends with the pending user message. -/
def logWellFormed (c : CtrlState) : Bool :=
  if c.isProcessing then isPairsThenUser c.appendLog
  else isUserGeniePairs c.appendLog

/-- Presence of the three DOM elements required by `cacheElements`
(`genie.js` lines 46-70): `chatWindow`, `messageForm`, `messageInput`. -/
structure DomElements where
  chatWindow : Bool
  messageForm : Bool
  messageInput : Bool
deriving DecidableEq

/-- The single failure `init` can encounter in this model. -/
inductive InitError where
  | missingElements
deriving DecidableEq

/-- `cacheElements` from `genie.js` lines 46-70: throws when any of the
required elements is missing. -/
def cacheElements (dom : DomElements) : Except InitError Unit :=
  if dom.chatWindow && dom.messageForm && dom.messageInput then Except.ok ()
  else Except.error InitError.missingElements

/-- A constructed `GlobocorpGenie` instance: its configuration, message
history (as assigned by `loadMessageHistory`, hence a `JsonValue`),
re-entrancy flag, whether `bindEvents` ran, and whether `init` caught an
error via `handleError`. -/
structure GenieApp where
  config : Config
  messageHistory : JsonValue
  isProcessing : Bool
  eventsBound : Bool
  initError : Bool
deriving DecidableEq

/-- `init` from `genie.js` lines 32-41: `cacheElements`, `bindEvents` and
`loadMessageHistory` run inside a `try`; any exception is passed to
`handleError`, which logs and swallows it, so `init` always returns.
Nothing in `init` (or anywhere else) inspects `replies` or the delay
range. -/
def globocorpGenie_init (cfg : Config) (dom : DomElements)
    (storage : StoredPayload) : GenieApp :=
  match cacheElements dom with
  | Except.error _ =>
    { config := cfg, messageHistory := JsonValue.msgArray []
      isProcessing := false, eventsBound := false, initError := true }
  | Except.ok _ =>
    { config := cfg
      messageHistory :=
        (loadMessageHistory cfg.enableMessageHistory storage
          (JsonValue.msgArray [])).1
      isProcessing := false
      eventsBound := true
      initError := false }

/-- The `GlobocorpGenie` constructor (`genie.js` lines 12-27): when
`window.GenieConfig` is absent it logs and returns without initializing
(no usable instance); otherwise it sets up the fields and calls `init`.
The constructor performs no validation of the configuration values. -/
def globocorpGenie_constructor (windowHasConfig : Bool) (cfg : Config)
    (dom : DomElements) (storage : StoredPayload) : Option GenieApp :=
  if windowHasConfig then some (globocorpGenie_init cfg dom storage)
  else none

/-- A minimal message used in concrete executions. -/
def dummyMessage : Message := { text := [], sender := Sender.user, timestamp := 0 }

/-! ### Helper lemmas about `jsTrim` -/

theorem dropWhile_head_false (p : Char → Bool) :
    ∀ (l : List Char) (c : Char) (rest : List Char),
      l.dropWhile p = c :: rest → p c = false
  | [], c, rest, h => by simp [List.dropWhile] at h
  | a :: as, c, rest, h => by
    by_cases hpa : p a
    · exact dropWhile_head_false p as c rest (by simpa [List.dropWhile, hpa] using h)
    · rw [List.dropWhile_cons_of_neg hpa] at h
      cases h
      simpa using hpa

theorem jsTrim_all_whitespace {l : List Char} (h : jsTrim l = []) :
    ∀ c ∈ l, Char.isWhitespace c := by
  unfold jsTrim at h
  rw [List.reverse_eq_nil_iff, List.dropWhile_eq_nil_iff] at h
  intro c hc
  rcases heq : l.dropWhile Char.isWhitespace with _ | ⟨d, rest⟩
  · rw [List.dropWhile_eq_nil_iff] at heq
    exact heq c hc
  · have hd : Char.isWhitespace d = false := dropWhile_head_false _ l d rest heq
    have hmem : d ∈ (l.dropWhile Char.isWhitespace).reverse := by
      rw [List.mem_reverse, heq]; exact List.mem_cons_self d rest
    have := h d hmem
    rw [hd] at this
    cases this

theorem jsTrim_nonWhitespace_member {l : List Char} (h : jsTrim l ≠ []) :
    ∃ c ∈ jsTrim l, Char.isWhitespace c = false := by
  rcases heq : (jsTrim l).reverse with _ | ⟨c, rest⟩
  · rw [List.reverse_eq_nil_iff] at heq; exact absurd heq h
  · refine ⟨c, ?_, ?_⟩
    · rw [← List.mem_reverse, heq]; exact List.mem_cons_self c rest
    · have hdef : jsTrim l =
          ((l.dropWhile Char.isWhitespace).reverse.dropWhile Char.isWhitespace).reverse := rfl
      rw [hdef, List.reverse_reverse] at heq
      exact dropWhile_head_false _ _ c rest heq

theorem jsTrim_of_jsTrim_eq_nil {l : List Char} (h : jsTrim (jsTrim l) = []) :
    jsTrim l = [] := by
  by_contra hne
  rcases jsTrim_nonWhitespace_member hne with ⟨c, hc, hcw⟩
  have := jsTrim_all_whitespace h c hc
  rw [hcw] at this
  cases this

theorem validateTrimmed_eq_ok {s : List Char} {maxLength : Nat}
    (h1 : jsTrim s ≠ []) (h2 : (jsTrim s).length ≤ maxLength) :
    validateTrimmed s maxLength = Except.ok (jsTrim s) := by
  have hiE : (jsTrim s).isEmpty = false := by simpa [List.isEmpty_iff] using h1
  have h2' : ¬ (maxLength < (jsTrim s).length) := by omega
  simp [validateTrimmed, validateMessage, hiE, h2']

theorem utilsValidateTrimmed_eq (s : List Char) (maxLength : Nat) :
    utilsValidateTrimmed s maxLength = validateTrimmed s maxLength := by
  by_cases h1 : jsTrim s = []
  · simp [utilsValidateTrimmed, validateTrimmed, utilsValidateMessage,
      validateMessage, h1]
  · have hiE : (jsTrim s).isEmpty = false := by simpa [List.isEmpty_iff] using h1
    have hJJ : ¬ ((jsTrim (jsTrim s)).length = 0) := fun h0 =>
      h1 (jsTrim_of_jsTrim_eq_nil (List.length_eq_zero.mp h0))
    simp [utilsValidateTrimmed, validateTrimmed, utilsValidateMessage,
      validateMessage, hiE, hJJ]

/-- C3: for every string `s` and bound `maxLength`, the validation
pipeline fails with the empty-message error exactly when `trim(s)` has
zero length, fails with the too-long error exactly when the length of
`trim(s)` (the trimmed string, not the raw input) exceeds `maxLength`,
and succeeds in all other cases; the `app.js` pipeline
(`Utils.validateMessage` after the caller's trim) behaves identically. -/
theorem claim_C3_validation_failure_cases (s : List Char) (maxLength : Nat) :
    (validateTrimmed s maxLength = Except.error ValidationError.emptyMessage ↔
      (jsTrim s).length = 0)
  ∧ (validateTrimmed s maxLength = Except.error ValidationError.tooLong ↔
      ((jsTrim s).length ≠ 0 ∧ maxLength < (jsTrim s).length))
  ∧ ((jsTrim s).length ≠ 0 → (jsTrim s).length ≤ maxLength →
      validateTrimmed s maxLength = Except.ok (jsTrim s))
  ∧ utilsValidateTrimmed s maxLength = validateTrimmed s maxLength := by
  refine ⟨?_, ?_, ?_, utilsValidateTrimmed_eq s maxLength⟩
  · by_cases h1 : jsTrim s = []
    · simp [validateTrimmed, validateMessage, h1]
    · have hiE : (jsTrim s).isEmpty = false := by simpa [List.isEmpty_iff] using h1
      have hlen : (jsTrim s).length ≠ 0 := by simpa [List.length_eq_zero] using h1
      by_cases h2 : maxLength < (jsTrim s).length
      · simp [validateTrimmed, validateMessage, hiE, h2, hlen]
      · simp [validateTrimmed, validateMessage, hiE, h2, hlen]
  · by_cases h1 : jsTrim s = []
    · simp [validateTrimmed, validateMessage, h1]
    · have hiE : (jsTrim s).isEmpty = false := by simpa [List.isEmpty_iff] using h1
      have hlen : (jsTrim s).length ≠ 0 := by simpa [List.length_eq_zero] using h1
      by_cases h2 : maxLength < (jsTrim s).length
      · simp [validateTrimmed, validateMessage, hiE, h2, hlen]
      · simp [validateTrimmed, validateMessage, hiE, h2, hlen]
  · intro hlen hle
    exact validateTrimmed_eq_ok (by simpa [List.length_eq_zero] using hlen) hle

/-- C3 witness: the nested implication instantiated at the concrete input
`" hi"` with `maxLength = 500`. -/
theorem claim_C3_validation_failure_cases_witness :
    validateTrimmed (' ' :: 'h' :: 'i' :: []) 500 =
      Except.ok (jsTrim (' ' :: 'h' :: 'i' :: [])) :=
  (claim_C3_validation_failure_cases (' ' :: 'h' :: 'i' :: []) 500).2.2.1
    (by decide) (by decide)

/-- C7: for every input whose trimmed form is nonempty and within the
length bound, both validation pipelines succeed and return exactly the
trimmed input. -/
theorem claim_C7_valid_input_returns_trimmed (s : List Char) (maxLength : Nat)
    (h1 : 0 < (jsTrim s).length) (h2 : (jsTrim s).length ≤ maxLength) :
    validateTrimmed s maxLength = Except.ok (jsTrim s)
  ∧ utilsValidateTrimmed s maxLength = Except.ok (jsTrim s) := by
  have hne : jsTrim s ≠ [] := by
    intro h0; rw [h0] at h1; simp at h1
  refine ⟨validateTrimmed_eq_ok hne h2, ?_⟩
  rw [utilsValidateTrimmed_eq]
  exact validateTrimmed_eq_ok hne h2

/-- C7 witness: concrete valid input `"  wish  "` with `maxLength = 500`. -/
theorem claim_C7_valid_input_returns_trimmed_witness :
    validateTrimmed (' ' :: ' ' :: 'w' :: 'i' :: 's' :: 'h' :: ' ' :: ' ' :: []) 500 =
      Except.ok (jsTrim (' ' :: ' ' :: 'w' :: 'i' :: 's' :: 'h' :: ' ' :: ' ' :: []))
  ∧ utilsValidateTrimmed (' ' :: ' ' :: 'w' :: 'i' :: 's' :: 'h' :: ' ' :: ' ' :: []) 500 =
      Except.ok (jsTrim (' ' :: ' ' :: 'w' :: 'i' :: 's' :: 'h' :: ' ' :: ' ' :: [])) :=
  claim_C7_valid_input_returns_trimmed
    (' ' :: ' ' :: 'w' :: 'i' :: 's' :: 'h' :: ' ' :: ' ' :: []) 500
    (by decide) (by decide)

/-- C8: under the precondition `min ≤ max`, the selected delay
`Math.floor(r * (max - min + 1)) + min` is an integer in the closed
interval `[min, max]` for every draw `r ∈ [0, 1)`; in particular, for the
degenerate range `{min: 5, max: 5}` the delay equals exactly 5. -/
theorem claim_C8_delay_within_range (r : ℚ) (mi ma : Int)
    (h0 : 0 ≤ r) (h1 : r < 1) (hm : mi ≤ ma) :
    (mi ≤ getRandomDelay r mi ma ∧ getRandomDelay r mi ma ≤ ma)
  ∧ getRandomDelay r 5 5 = 5 := by
  have hcast : ((mi : ℚ)) ≤ (ma : ℚ) := by exact_mod_cast hm
  have hpos : (0 : ℚ) < (ma : ℚ) - (mi : ℚ) + 1 := by linarith
  have hfl0 : 0 ≤ ⌊r * ((ma : ℚ) - (mi : ℚ) + 1)⌋ :=
    Int.floor_nonneg.mpr (mul_nonneg h0 (le_of_lt hpos))
  have hlt : r * ((ma : ℚ) - (mi : ℚ) + 1) < ((ma - mi + 1 : Int) : ℚ) := by
    push_cast
    calc r * ((ma : ℚ) - (mi : ℚ) + 1)
        < 1 * ((ma : ℚ) - (mi : ℚ) + 1) := mul_lt_mul_of_pos_right h1 hpos
      _ = (ma : ℚ) - (mi : ℚ) + 1 := one_mul _
  have hflt : ⌊r * ((ma : ℚ) - (mi : ℚ) + 1)⌋ < ma - mi + 1 :=
    Int.floor_lt.mpr hlt
  refine ⟨⟨?_, ?_⟩, ?_⟩
  · unfold getRandomDelay; omega
  · unfold getRandomDelay; omega
  · unfold getRandomDelay
    have h55 : ((5 : Int) : ℚ) - ((5 : Int) : ℚ) + 1 = 1 := by norm_num
    rw [h55, mul_one]
    have hfz : ⌊r⌋ = 0 := by
      rw [Int.floor_eq_zero_iff]
      exact ⟨h0, h1⟩
    rw [hfz]
    norm_num

/-- C8 witness: the concrete draw `r = 1/2` with range `[3, 7]`. -/
theorem claim_C8_delay_within_range_witness :
    ((3 : Int) ≤ getRandomDelay (1/2) 3 7 ∧ getRandomDelay (1/2) 3 7 ≤ 7)
  ∧ getRandomDelay (1/2) 5 5 = 5 :=
  claim_C8_delay_within_range (1/2) 3 7 (by norm_num) (by norm_num) (by norm_num)

/-- C9: for every nonempty reply set and every draw `r ∈ [0, 1)`, the
computed index `Math.floor(r * length)` is in bounds and the selected
reply is an element of the reply set (the `undefined` branch of array
indexing is unreachable). -/
theorem claim_C9_reply_selection_in_bounds (r : ℚ)
    (responses : List (List Char)) (h0 : 0 ≤ r) (h1 : r < 1)
    (hne : responses ≠ []) :
    Int.toNat ⌊r * (responses.length : ℚ)⌋ < responses.length
  ∧ ∃ x, getRandomResponse r responses = some x ∧ x ∈ responses := by
  have hlpos : 0 < responses.length := List.length_pos.mpr hne
  have hlq : (0 : ℚ) < (responses.length : ℚ) := by exact_mod_cast hlpos
  have hfl0 : 0 ≤ ⌊r * (responses.length : ℚ)⌋ :=
    Int.floor_nonneg.mpr (mul_nonneg h0 (le_of_lt hlq))
  have hlt : r * (responses.length : ℚ) < ((responses.length : Int) : ℚ) := by
    push_cast
    calc r * (responses.length : ℚ)
        < 1 * (responses.length : ℚ) := mul_lt_mul_of_pos_right h1 hlq
      _ = (responses.length : ℚ) := one_mul _
  have hflt : ⌊r * (responses.length : ℚ)⌋ < (responses.length : Int) :=
    Int.floor_lt.mpr hlt
  have hidx : Int.toNat ⌊r * (responses.length : ℚ)⌋ < responses.length := by
    omega
  refine ⟨hidx, responses.get ⟨_, hidx⟩, ?_, List.get_mem _ _ _⟩
  exact List.get?_eq_get hidx

/-- C9 witness: the concrete draw `r = 1/3` on the shipped reply set. -/
theorem claim_C9_reply_selection_in_bounds_witness :
    Int.toNat ⌊(1/3 : ℚ) * (genieConfig.replies.length : ℚ)⌋ <
      genieConfig.replies.length
  ∧ ∃ x, getRandomResponse (1/3) genieConfig.replies = some x ∧
      x ∈ genieConfig.replies :=
  claim_C9_reply_selection_in_bounds (1/3) genieConfig.replies
    (by norm_num) (by norm_num) (by decide)

/-- C5: restoring after a successful persist of a message sequence `M`
yields exactly the most recent `min(length M, 50)` messages of `M` in
order — the persist cap is the constant 50 from `saveMessageHistory`,
independent of the display limit `messageLimit`, which does not occur in
the persistence path at all. -/
theorem claim_C5_persist_restore_roundtrip (M : List Message)
    (st : StoredPayload) (h0 : JsonValue) :
    loadMessageHistory true (saveMessageHistory true M st) h0 =
      (JsonValue.msgArray (jsSliceLast 50 M), false)
  ∧ jsSliceLast 50 M = M.drop (M.length - 50)
  ∧ (jsSliceLast 50 M).length = min M.length 50 := by
  refine ⟨rfl, ?_, ?_⟩
  · simp [jsSliceLast]
  · simp [jsSliceLast, List.length_drop]
    omega

/-- C6 counterexample: the payload `5` (valid JSON, but not a message
sequence) is restored without any `RestoreError` and is assigned to the
store verbatim, so the store does not start empty — refuting the claim
that every payload that does not deserialize to a valid message sequence
makes `restore` fail and leave the store empty. -/
theorem claim_C6_counterexample :
    loadMessageHistory true (StoredPayload.payload (JsonValue.nonArray 0))
      (JsonValue.msgArray []) = (JsonValue.nonArray 0, false)
  ∧ JsonValue.nonArray 0 ≠ JsonValue.msgArray [] := by
  exact ⟨rfl, by decide⟩

/-- C6 amended: `loadMessageHistory` is total (never throws to its
caller); it reports a caught restore failure exactly for syntactically
malformed payloads, leaving the store as it was (empty at startup), and
it assigns any syntactically well-formed payload to the store verbatim,
with no shape validation. -/
theorem claim_C6_amended (v : JsonValue) (h : JsonValue) :
    loadMessageHistory true StoredPayload.malformedSyntax h = (h, true)
  ∧ loadMessageHistory true StoredPayload.absent h = (h, false)
  ∧ loadMessageHistory true (StoredPayload.payload v) h = (v, false)
  ∧ loadMessageHistory true StoredPayload.malformedSyntax
      (JsonValue.msgArray []) = (JsonValue.msgArray [], true) :=
  ⟨rfl, rfl, rfl, rfl⟩

/-- C4 counterexample: a configuration with an empty reply set and
`delayRange.min = 10 > 5 = delayRange.max` still initializes successfully
(all DOM elements present, `GenieConfig` present) — refuting the claim
that such a configuration prevents the Controller from initializing. -/
theorem claim_C4_counterexample :
    (globocorpGenie_constructor true
      { genieConfig with replies := [], delayMin := 10, delayMax := 5 }
      { chatWindow := true, messageForm := true, messageInput := true }
      StoredPayload.absent).isSome = true
  ∧ ({ genieConfig with replies := [], delayMin := 10, delayMax := 5 }
      : Config).replies = []
  ∧ ({ genieConfig with replies := [], delayMin := 10, delayMax := 5 }
      : Config).delayMax <
    ({ genieConfig with replies := [], delayMin := 10, delayMax := 5 }
      : Config).delayMin := by
  refine ⟨rfl, rfl, by decide⟩

/-- C4 amended: initialization never inspects the reply set or the delay
range; the constructor produces an instance exactly when
`window.GenieConfig` is present, for every configuration (a missing DOM
element is caught inside `init` and recorded as a non-fatal logged
error). -/
theorem claim_C4_amended (cfg : Config) (dom : DomElements)
    (st : StoredPayload) :
    (globocorpGenie_constructor true cfg dom st).isSome = true
  ∧ globocorpGenie_constructor false cfg dom st = none := by
  constructor
  · simp [globocorpGenie_constructor]
  · simp [globocorpGenie_constructor]

/-- C10: when `features.enableMessageHistory` is false,
`saveMessageHistory` and `loadMessageHistory` return immediately without
touching storage or history, and `addMessage` leaves storage untouched
while producing exactly the same chat window and message history as it
would with the flag on. -/
theorem claim_C10_history_flag_disables_persistence (cfg : Config)
    (s : StoreState) (text : List Char) (who : Sender) (ts : Nat)
    (hist : List Message) (st : StoredPayload) (h0 : JsonValue) :
    saveMessageHistory false hist st = st
  ∧ loadMessageHistory false st h0 = (h0, false)
  ∧ (addMessage { cfg with enableMessageHistory := false } s text who ts).storage
      = s.storage
  ∧ (addMessage { cfg with enableMessageHistory := false } s text who ts).messageHistory
      = (addMessage { cfg with enableMessageHistory := true } s text who ts).messageHistory
  ∧ (addMessage { cfg with enableMessageHistory := false } s text who ts).domCount
      = (addMessage { cfg with enableMessageHistory := true } s text who ts).domCount := by
  refine ⟨rfl, rfl, ?_, ?_, ?_⟩ <;>
    by_cases hc : cfg.messageLimit < s.domCount + 1 <;>
      simp [addMessage, enforceMessageLimit, hc]

/-! ### Helper lemmas for the history bound -/

theorem jsSliceLast_length {count : Nat} (hc : 0 < count) (l : List Message) :
    (jsSliceLast count l).length = min l.length count := by
  simp [jsSliceLast, Nat.pos_iff_ne_zero.mp hc, List.length_drop]
  omega

theorem foldl_slide_eq_drop (L : Nat) (hL : 0 < L) :
    ∀ (msgs : List Message) (h : List Message), h.length ≤ L →
      msgs.foldl (fun acc m => jsSliceLast L (acc ++ [m])) h =
        (h ++ msgs).drop (h.length + msgs.length - L)
  | [], h, hh => by
    have h0 : h.length - L = 0 := by omega
    simp [h0]
  | m :: rest, h, hh => by
    have hL0 : L ≠ 0 := Nat.pos_iff_ne_zero.mp hL
    have hstep : jsSliceLast L (h ++ [m]) =
        (h ++ [m]).drop ((h ++ [m]).length - L) := by
      simp [jsSliceLast, hL0]
    have hlenstep : (jsSliceLast L (h ++ [m])).length ≤ L := by
      rw [jsSliceLast_length hL]
      omega
    have IH := foldl_slide_eq_drop L hL rest (jsSliceLast L (h ++ [m])) hlenstep
    rw [List.foldl_cons, IH]
    have hd : (h ++ [m]).length - L ≤ (h ++ [m]).length := Nat.sub_le _ _
    rw [hstep]
    rw [← List.drop_append_of_le_length hd]
    rw [List.drop_drop]
    have harith : (h ++ [m]).length - L +
        (((h ++ [m]).drop ((h ++ [m]).length - L)).length + rest.length - L) =
        h.length + (m :: rest).length - L := by
      simp only [List.length_drop, List.length_append, List.length_cons,
        List.length_nil]
      omega
    rw [harith]
    congr 1
    simp

theorem addMessage_messageHistory (cfg : Config) (s : StoreState)
    (text : List Char) (who : Sender) (ts : Nat)
    (hL : 0 < cfg.messageLimit)
    (hsync : s.domCount = s.messageHistory.length) :
    (addMessage cfg s text who ts).messageHistory =
      jsSliceLast cfg.messageLimit (s.messageHistory ++ [⟨text, who, ts⟩])
  ∧ (addMessage cfg s text who ts).domCount =
      (addMessage cfg s text who ts).messageHistory.length := by
  have hL0 : cfg.messageLimit ≠ 0 := by omega
  by_cases hc : cfg.messageLimit < s.messageHistory.length + 1
  · have hmin : min (s.messageHistory.length + 1) cfg.messageLimit =
        cfg.messageLimit := by omega
    constructor
    · by_cases he : cfg.enableMessageHistory <;>
        simp [addMessage, enforceMessageLimit, hsync, hc, he]
    · by_cases he : cfg.enableMessageHistory <;>
        · simp [addMessage, enforceMessageLimit, hsync, hc, he,
            jsSliceLast_length hL]
          omega
  · have hdrop : s.messageHistory.length + 1 - cfg.messageLimit = 0 := by omega
    constructor
    · by_cases he : cfg.enableMessageHistory <;>
        simp [addMessage, enforceMessageLimit, hsync, hc, he, jsSliceLast,
          hL0, hdrop]
    · by_cases he : cfg.enableMessageHistory <;>
        simp [addMessage, enforceMessageLimit, hsync, hc, he, jsSliceLast,
          hL0, hdrop]

theorem foldl_addMessage_messageHistory (cfg : Config)
    (hL : 0 < cfg.messageLimit) :
    ∀ (msgs : List Message) (s : StoreState),
      s.domCount = s.messageHistory.length →
      s.messageHistory.length ≤ cfg.messageLimit →
      (msgs.foldl (fun a m => addMessage cfg a m.text m.sender m.timestamp)
          s).messageHistory =
        msgs.foldl (fun acc m => jsSliceLast cfg.messageLimit (acc ++ [m]))
          s.messageHistory
      ∧ (msgs.foldl (fun a m => addMessage cfg a m.text m.sender m.timestamp)
          s).messageHistory.length ≤ cfg.messageLimit
  | [], s, h1, h2 => ⟨rfl, h2⟩
  | m :: rest, s, h1, h2 => by
    have hA := addMessage_messageHistory cfg s m.text m.sender m.timestamp hL h1
    have hm : (⟨m.text, m.sender, m.timestamp⟩ : Message) = m := rfl
    rw [hm] at hA
    have hlen : (addMessage cfg s m.text m.sender m.timestamp).messageHistory.length
        ≤ cfg.messageLimit := by
      rw [hA.1, jsSliceLast_length hL]
      omega
    have IH := foldl_addMessage_messageHistory cfg hL rest
      (addMessage cfg s m.text m.sender m.timestamp) hA.2 hlen
    constructor
    · rw [List.foldl_cons, List.foldl_cons, IH.1, hA.1]
    · rw [List.foldl_cons]
      exact IH.2

set_option maxRecDepth 4000 in
/-- C1 counterexample: the history bound `messageLimit = 100` is violated
after a restore at startup.  A previous session persisted 60 messages
(storage keeps the last 50); `loadMessageHistory` restores those 50 into
`messageHistory` without rendering them, so the chat window still holds 0
`.message` elements; appending 51 messages then leaves the history at 101
entries — `enforceMessageLimit` never fires because it watches the DOM
element count (51), not the history length (101 > 100). -/
theorem claim_C1_counterexample :
    loadMessageHistory true
      (saveMessageHistory true (List.replicate 60 dummyMessage)
        StoredPayload.absent)
      (JsonValue.msgArray [])
      = (JsonValue.msgArray (List.replicate 50 dummyMessage), false)
  ∧ ((List.replicate 51 dummyMessage).foldl
      (fun s m => addMessage genieConfig s m.text m.sender m.timestamp)
      { domCount := 0
        messageHistory := List.replicate 50 dummyMessage
        storage := saveMessageHistory true (List.replicate 60 dummyMessage)
          StoredPayload.absent }).messageHistory.length = 101
  ∧ ¬ (101 ≤ genieConfig.messageLimit) := by
  refine ⟨by decide, by decide, by decide⟩

/-- C1 amended: in a session whose store starts empty (no restored
history, chat window and history in sync), the invariant does hold: after
every sequence of `addMessage` calls the history length is at most
`messageLimit`, the retained history is exactly the most recent
`messageLimit` appended messages in original order (oldest dropped
first), and appending at least `messageLimit` messages leaves exactly
`messageLimit` entries.  After a restore at startup the bound can be
exceeded (see the counterexample) because the overflow trim is keyed to
the rendered element count, which excludes restored messages. -/
theorem claim_C1_amended (cfg : Config) (st : StoredPayload)
    (msgs : List Message) (hL : 0 < cfg.messageLimit) :
    (msgs.foldl (fun a m => addMessage cfg a m.text m.sender m.timestamp)
        { domCount := 0, messageHistory := [], storage := st }).messageHistory.length
      ≤ cfg.messageLimit
  ∧ (msgs.foldl (fun a m => addMessage cfg a m.text m.sender m.timestamp)
        { domCount := 0, messageHistory := [], storage := st }).messageHistory
      = msgs.drop (msgs.length - cfg.messageLimit)
  ∧ (cfg.messageLimit ≤ msgs.length →
      (msgs.foldl (fun a m => addMessage cfg a m.text m.sender m.timestamp)
        { domCount := 0, messageHistory := [], storage := st }).messageHistory.length
      = cfg.messageLimit) := by
  have hbase := foldl_addMessage_messageHistory cfg hL msgs
    { domCount := 0, messageHistory := [], storage := st } rfl (Nat.zero_le _)
  have h1 : (msgs.foldl (fun a m => addMessage cfg a m.text m.sender m.timestamp)
      { domCount := 0, messageHistory := [], storage := st }).messageHistory =
      msgs.foldl (fun acc m => jsSliceLast cfg.messageLimit (acc ++ [m])) [] :=
    hbase.1
  have hslide := foldl_slide_eq_drop cfg.messageLimit hL msgs [] (Nat.zero_le _)
  refine ⟨hbase.2, ?_, ?_⟩
  · rw [h1, hslide]
    simp
  · intro hk
    rw [h1, hslide]
    simp [List.length_drop]
    omega

/-- C1 amended witness: three appends against a store with
`messageLimit = 2` retain exactly the last two messages. -/
theorem claim_C1_amended_witness :
    ((List.replicate 3 dummyMessage).foldl
        (fun a m => addMessage { genieConfig with messageLimit := 2 } a
          m.text m.sender m.timestamp)
        { domCount := 0, messageHistory := [], storage := StoredPayload.absent
          }).messageHistory.length
      ≤ ({ genieConfig with messageLimit := 2 } : Config).messageLimit
  ∧ ((List.replicate 3 dummyMessage).foldl
        (fun a m => addMessage { genieConfig with messageLimit := 2 } a
          m.text m.sender m.timestamp)
        { domCount := 0, messageHistory := [], storage := StoredPayload.absent
          }).messageHistory
      = (List.replicate 3 dummyMessage).drop
          ((List.replicate 3 dummyMessage).length -
            ({ genieConfig with messageLimit := 2 } : Config).messageLimit)
  ∧ (({ genieConfig with messageLimit := 2 } : Config).messageLimit ≤
        (List.replicate 3 dummyMessage).length →
      ((List.replicate 3 dummyMessage).foldl
        (fun a m => addMessage { genieConfig with messageLimit := 2 } a
          m.text m.sender m.timestamp)
        { domCount := 0, messageHistory := [], storage := StoredPayload.absent
          }).messageHistory.length
      = ({ genieConfig with messageLimit := 2 } : Config).messageLimit) :=
  claim_C1_amended { genieConfig with messageLimit := 2 } StoredPayload.absent
    (List.replicate 3 dummyMessage) (by decide)

/-! ### Helper lemmas for the submission ordering guarantee -/

theorem pairs_append_user :
    ∀ (t : List Sender), isUserGeniePairs t = true →
      isPairsThenUser (t ++ [Sender.user]) = true
  | [], _ => rfl
  | [Sender.user], h => Bool.noConfusion h
  | [Sender.genie], h => Bool.noConfusion h
  | Sender.user :: Sender.user :: _, h => Bool.noConfusion h
  | Sender.genie :: _ :: _, h => Bool.noConfusion h
  | Sender.user :: Sender.genie :: rest, h => pairs_append_user rest h

theorem pairsThenUser_append_genie :
    ∀ (t : List Sender), isPairsThenUser t = true →
      isUserGeniePairs (t ++ [Sender.genie]) = true
  | [], h => Bool.noConfusion h
  | [Sender.user], _ => rfl
  | [Sender.genie], h => Bool.noConfusion h
  | Sender.user :: Sender.user :: _, h => Bool.noConfusion h
  | Sender.genie :: _ :: _, h => Bool.noConfusion h
  | Sender.user :: Sender.genie :: rest, h => pairsThenUser_append_genie rest h

theorem submit_while_processing_noop (cfg : Config) (c : CtrlState)
    (text : List Char) (ts : Nat) (hp : c.isProcessing = true) :
    stepGenie cfg c (GenieEvent.submit text ts) = c := by
  show handleSendMessage cfg c text ts = c
  unfold handleSendMessage
  cases hv : validateMessage (jsTrim text) cfg.maxMessageLength with
  | some e => simp [hv]
  | none => simp [hv, hp]

theorem stepGenie_preserves_wf (cfg : Config) (c : CtrlState)
    (e : GenieEvent) (h : logWellFormed c = true) :
    logWellFormed (stepGenie cfg c e) = true := by
  cases e with
  | submit text ts =>
    show logWellFormed (handleSendMessage cfg c text ts) = true
    unfold handleSendMessage
    cases hv : validateMessage (jsTrim text) cfg.maxMessageLength with
    | some e' => simpa [hv] using h
    | none =>
      by_cases hp : c.isProcessing
      · simpa [hv, hp] using h
      · have hidle : isUserGeniePairs c.appendLog = true := by
          simpa [logWellFormed, hp] using h
        simp [hv, hp, logWellFormed]
        exact pairs_append_user c.appendLog hidle
  | timerFires reply ts =>
    show logWellFormed (timerResume cfg c reply ts) = true
    by_cases hp : c.isProcessing
    · have hbusy : isPairsThenUser c.appendLog = true := by
        simpa [logWellFormed, hp] using h
      simp [timerResume, hp, logWellFormed]
      exact pairsThenUser_append_genie c.appendLog hbusy
    · simpa [timerResume, hp] using h

theorem runGenie_wf_aux (cfg : Config) :
    ∀ (events : List GenieEvent) (c : CtrlState), logWellFormed c = true →
      logWellFormed (events.foldl (stepGenie cfg) c) = true
  | [], _, h => h
  | e :: rest, c, h =>
    runGenie_wf_aux cfg rest (stepGenie cfg c e)
      (stepGenie_preserves_wf cfg c e h)

/-- C2: in every reachable controller state, a submit while `isProcessing`
is true is rejected with no change whatsoever to the state (no message
appended), and consequently the log of appended messages always consists
of User-then-corresponding-Genie-reply pairs in order (with at most the
pending User message open), so no interleaving of a second submission's
pair is possible. -/
theorem claim_C2_single_flight (cfg : Config) (st : StoredPayload)
    (events : List GenieEvent) (text : List Char) (ts : Nat) :
    ((runGenie cfg st events).isProcessing = true →
      stepGenie cfg (runGenie cfg st events) (GenieEvent.submit text ts)
        = runGenie cfg st events)
  ∧ logWellFormed (runGenie cfg st events) = true := by
  constructor
  · intro hp
    exact submit_while_processing_noop cfg (runGenie cfg st events) text ts hp
  · exact runGenie_wf_aux cfg events (initCtrl st) rfl

/-- C2 witness: after submitting `"hi"` the controller is processing, and
a second submit is the identity on the state; the append log is
well-formed. -/
theorem claim_C2_single_flight_witness :
    stepGenie genieConfig
      (runGenie genieConfig StoredPayload.absent
        [GenieEvent.submit ('h' :: 'i' :: []) 0])
      (GenieEvent.submit ('y' :: 'o' :: []) 1)
      = runGenie genieConfig StoredPayload.absent
        [GenieEvent.submit ('h' :: 'i' :: []) 0]
  ∧ logWellFormed (runGenie genieConfig StoredPayload.absent
      [GenieEvent.submit ('h' :: 'i' :: []) 0]) = true :=
  ⟨(claim_C2_single_flight genieConfig StoredPayload.absent
      [GenieEvent.submit ('h' :: 'i' :: []) 0] ('y' :: 'o' :: []) 1).1
      (by decide),
   (claim_C2_single_flight genieConfig StoredPayload.absent
      [GenieEvent.submit ('h' :: 'i' :: []) 0] ('y' :: 'o' :: []) 1).2⟩
